import Mathlib

/-!
Verification of the in-container service supervisor (`templates/entrypoint.ts`).

The development shallowly embeds the supervisor's pure decision logic:

* `validatePreCommand` — the allow-list check for privileged pre-commands
  (the `ALLOWED_PRECMD` regular expression applied to the trimmed command).
* `startService` — one entry into the per-service start routine: the
  condition gate, the pre-command step and the spawn, returning the resulting
  scheduling state (a pending timer, a running child, or nothing) together
  with the list of observable actions it performs, in order.
* `onExit` — the child-exit handler: clean exits stop supervision, all other
  exits schedule a restart timer.
* `fireTimer` — what a pending `setTimeout` callback does when it fires
  (every timer in the source re-enters `startService`).
* `startAllServices` — boot-time registration of the gateway plus the
  declared services, including the missing/unparsable `services.json` cases.
* `cleanStaleLocks` / `migrateDoctor` — the one-time maintenance fixups.
* `parseIntJS10` — JavaScript `parseInt(·, 10)`, used for `STARTUP_DELAY`.
* `mainEvents` — the boot sequence of `main()` as an ordered event list.

Filesystem probes (`existsSync`) are passed in as a boolean-valued oracle
`fs : String → Bool`; timers are represented by the millisecond delay and the
continuation the source installs.
-/

/-- The `ServiceConfig` interface of the source: one declared service.
Delays are seconds; the source reads them from JSON (we model the numeric
fields as naturals, which covers every configuration the spec discusses). -/
structure ServiceConfig where
  name : String
  command : String
  condition : Option String
  preCommand : Option String
  restartDelay : Option Nat
  startDelay : Option Nat
  deriving DecidableEq, Repr

/-- `NODE_UID` constant of the source. -/
def NODE_UID : Nat := 1000

/-- `NODE_GID` constant of the source. -/
def NODE_GID : Nat := 1000

/-- `NODE_HOME` constant of the source. -/
def NODE_HOME : String := "/home/node"

/-- JavaScript whitespace (`\s` in a regular expression, and the set stripped
by `String.prototype.trim`): space, tab, line terminators, and the Unicode
space separators. -/
def isJsSpace (c : Char) : Bool :=
  c == ' ' || c == '\t' || c == '\n' || c == '\r' || c == '\x0b' || c == '\x0c' ||
  c == '\u00A0' || c == '\u1680' ||
  (decide (0x2000 ≤ c.toNat) && decide (c.toNat ≤ 0x200A)) ||
  c == '\u2028' || c == '\u2029' || c == '\u202F' || c == '\u205F' ||
  c == '\u3000' || c == '\uFEFF'

/-- JavaScript `String.prototype.trim`: strip leading and trailing
whitespace. We work with the character list of the string. -/
def jsTrim (s : String) : List Char :=
  ((s.data.dropWhile isJsSpace).reverse.dropWhile isJsSpace).reverse

/-- Match a literal character sequence at the head of the input, returning
the rest of the input on success. -/
def stripLit : List Char → List Char → Option (List Char)
  | [], l => some l
  | _ :: _, [] => none
  | c :: cs, d :: ds => if d == c then stripLit cs ds else none

/-- Match a maximal nonempty run of characters satisfying `p` at the head of
the input (the greedy `p+`), returning the rest of the input. Because in
`ALLOWED_PRECMD` every character that may follow such a run fails `p`, the
greedy match never needs to backtrack, so this is faithful to the regex. -/
def stripRun (p : Char → Bool) : List Char → Option (List Char)
  | [] => none
  | c :: rest => if p c then some (rest.dropWhile p) else none

/-- The character class `[^\s;&|`$()]` of `ALLOWED_PRECMD`: one character of
the target path. -/
def isPathChar (c : Char) : Bool :=
  !isJsSpace c && c != ';' && c != '&' && c != '|' && c != '\x60' &&
  c != '$' && c != '(' && c != ')'

/-- The literal `chmod` of `ALLOWED_PRECMD`, as characters. -/
def litChmod : List Char := ['c', 'h', 'm', 'o', 'd']

/-- The literal `-R` of `ALLOWED_PRECMD`, as characters. -/
def litDashR : List Char := ['-', 'R']

/-- The literal `a\+rw` of `ALLOWED_PRECMD`, as characters. -/
def litArw : List Char := ['a', '+', 'r', 'w']

/-- The literal `\/home\/node\/` of `ALLOWED_PRECMD`, as characters. -/
def litHome : List Char := ['/', 'h', 'o', 'm', 'e', '/', 'n', 'o', 'd', 'e', '/']

/-- The literal `2>\/dev\/null` of `ALLOWED_PRECMD`, as characters. -/
def litDevNull : List Char := ['2', '>', '/', 'd', 'e', 'v', '/', 'n', 'u', 'l', 'l']

/-- The literal `\|\|` of `ALLOWED_PRECMD`, as characters. -/
def litPipes : List Char := ['|', '|']

/-- The literal `true` of `ALLOWED_PRECMD`, as characters. -/
def litTrue : List Char := ['t', 'r', 'u', 'e']

/-- The optional tail group of `ALLOWED_PRECMD`:
`(\s+2>\/dev\/null\s+\|\|\s+true)?$`, matched against what is left after the
path. Returns the rest after a successful nonempty-group match. -/
def suffixRest (l : List Char) : Option (List Char) :=
  (stripRun isJsSpace l).bind fun l1 =>
  (stripLit litDevNull l1).bind fun l2 =>
  (stripRun isJsSpace l2).bind fun l3 =>
  (stripLit litPipes l3).bind fun l4 =>
  (stripRun isJsSpace l4).bind fun l5 =>
  stripLit litTrue l5

/-- End-of-pattern check after the path: either the input is exhausted, or
the whole optional suffix group matches and exhausts it. -/
def matchOptSuffix (l : List Char) : Bool :=
  match l with
  | [] => true
  | _ :: _ => decide (suffixRest l = some [])

/-- The mandatory head of `ALLOWED_PRECMD`:
`^chmod\s+-R\s+a\+rw\s+\/home\/node\/[^\s;&|`$()]+`, returning what is left
after the path characters. -/
def headRest (l : List Char) : Option (List Char) :=
  (stripLit litChmod l).bind fun l1 =>
  (stripRun isJsSpace l1).bind fun l2 =>
  (stripLit litDashR l2).bind fun l3 =>
  (stripRun isJsSpace l3).bind fun l4 =>
  (stripLit litArw l4).bind fun l5 =>
  (stripRun isJsSpace l5).bind fun l6 =>
  (stripLit litHome l6).bind fun l7 =>
  stripRun isPathChar l7

/-- Anchored match of the whole `ALLOWED_PRECMD` regular expression. -/
def allowedPrecmd (l : List Char) : Bool :=
  match headRest l with
  | some rest => matchOptSuffix rest
  | none => false

/-- `validatePreCommand` of the source: `ALLOWED_PRECMD.test(cmd.trim())`. -/
def validatePreCommand (cmd : String) : Bool :=
  allowedPrecmd (jsTrim cmd)

/-- JavaScript `String.prototype.startsWith`, over the character list. -/
def strStartsWith (s p : String) : Bool :=
  p.data.isPrefixOf s.data

/-- JavaScript `String.prototype.slice(n)` (drop the first `n` units), over
the character list. -/
def strDrop (s : String) (n : Nat) : String :=
  String.mk (s.data.drop n)

/-- One observable action of the supervisor, in the order performed.
Constructor names record the log severity used by the source:
`logWaiting`, `logStarted`, `logCleanExit`, `logRestarting` and
`logDelayingStart` are `console.log`; `errorBlocked` is `console.error`. -/
inductive SvcAction where
  /-- `console.log` of the throttled "waiting for file" message. -/
  | logWaiting (name : String) (file : String)
  /-- `console.error` of the BLOCKED message for an unsafe pre-command. -/
  | errorBlocked (name : String) (cmd : String)
  /-- `spawnSync("sh", ["-c", cmd])` — the pre-command, run synchronously
  and as root (no uid/gid option is passed, the supervisor is root). -/
  | runPreAsRoot (cmd : String)
  /-- `spawn("sh", ["-c", cmd], uid, gid, HOME)` — the service's command. -/
  | spawnAsUser (uid gid : Nat) (home : String) (cmd : String)
  /-- `console.log` of the "started" message. -/
  | logStarted (name : String)
  /-- `console.log` of the "exited cleanly, not restarting" message. -/
  | logCleanExit (name : String)
  /-- `console.log` of the "exited, restarting in Ns" message. -/
  | logRestarting (name : String) (code : Option Int) (sig : Option String)
      (delaySeconds : Nat)
  /-- `console.log` of the "delaying initial start by Ns" message. -/
  | logDelayingStart (name : String) (delaySeconds : Nat)
  deriving DecidableEq, Repr

/-- The continuation a pending `setTimeout` will run: every timer in the
source re-enters `startService`. `condRetry a` is
`setTimeout(() => startService(svc, a), 30_000)`; `restart` and `firstStart`
are `setTimeout(() => startService(svc), ...)`, whose omitted `attempt`
argument defaults to `0`. -/
inductive SvcCont where
  | condRetry (attempt : Nat)
  | restart
  | firstStart
  deriving DecidableEq, Repr

/-- The scheduling state of one supervised service instance after a step:
a pending timer (with its millisecond delay and continuation), a running
child process, or terminal clean-exit state. -/
inductive SvcState where
  | timer (delayMs : Nat) (k : SvcCont)
  | running
  | stopped
  deriving DecidableEq, Repr

/-- The pre-command step plus spawn, common to every path of `startService`
that reaches the spawn: validate and run (or block) the pre-command, then
spawn the command as the node user with `HOME` set. -/
def proceedActions (svc : ServiceConfig) : List SvcAction :=
  (match svc.preCommand with
    | some pc =>
      if validatePreCommand pc then [SvcAction.runPreAsRoot pc]
      else [SvcAction.errorBlocked svc.name pc]
    | none => []) ++
  [SvcAction.spawnAsUser NODE_UID NODE_GID NODE_HOME svc.command,
   SvcAction.logStarted svc.name]

/-- `startService(svc, attempt)` of the source: the condition gate (only the
`file:` syntax is recognised; the wait log is throttled to every tenth
attempt), then pre-command validation and the spawn.  `fs` is the
`existsSync` oracle. -/
def startService (fs : String → Bool) (svc : ServiceConfig) (attempt : Nat) :
    SvcState × List SvcAction :=
  match svc.condition with
  | some c =>
    if strStartsWith c "file:" then
      if fs (strDrop c 5) then (SvcState.running, proceedActions svc)
      else
        (SvcState.timer 30000 (SvcCont.condRetry (attempt + 1)),
         if attempt == 0 || attempt % 10 == 0 then
           [SvcAction.logWaiting svc.name (strDrop c 5)]
         else [])
    else (SvcState.running, proceedActions svc)
  | none => (SvcState.running, proceedActions svc)

/-- The `child.on("exit", ...)` handler of `startService`: exit code exactly
`0` stops supervision of the instance; any other code (or a null code, i.e.
termination by signal) schedules `setTimeout(() => startService(svc), delay
* 1000)` with `delay = svc.restartDelay ?? 5`. -/
def onExit (svc : ServiceConfig) (code : Option Int) (sig : Option String) :
    SvcState × List SvcAction :=
  if code = some 0 then (SvcState.stopped, [SvcAction.logCleanExit svc.name])
  else
    (SvcState.timer (svc.restartDelay.getD 5 * 1000) SvcCont.restart,
     [SvcAction.logRestarting svc.name code sig (svc.restartDelay.getD 5)])

/-- Firing a pending timer: each continuation re-enters `startService`, with
attempt `0` for the restart and first-start timers (the source omits the
argument there). A non-timer state has no pending callback. -/
def fireTimer (fs : String → Bool) (svc : ServiceConfig) :
    SvcState → SvcState × List SvcAction
  | SvcState.timer _ k =>
    match k with
    | SvcCont.condRetry a => startService fs svc a
    | SvcCont.restart => startService fs svc 0
    | SvcCont.firstStart => startService fs svc 0
  | s => (s, [])

/-- The state of a service after `startService(svc, 0)` and `n` subsequent
timer firings, with no child exit in between (in particular the whole
history of a service whose condition never becomes true). -/
def iterStates (fs : String → Bool) (svc : ServiceConfig) : Nat → SvcState
  | 0 => (startService fs svc 0).1
  | n + 1 => (fireTimer fs svc (iterStates fs svc n)).1

/-- Whether an action is the spawn of the service's own command. -/
def SvcAction.isSpawn : SvcAction → Bool
  | SvcAction.spawnAsUser _ _ _ _ => true
  | _ => false

/-- Whether an action is a `console.error` log. -/
def SvcAction.isErrorLog : SvcAction → Bool
  | SvcAction.errorBlocked _ _ => true
  | _ => false

/-- The synthetic always-present gateway service of `startAllServices`. -/
def gatewayConfig : ServiceConfig :=
  { name := "gateway"
    command := "cd /app && node dist/index.js gateway"
    condition := none
    preCommand := none
    restartDelay := some 1
    startDelay := none }

/-- One boot-time event of `startAllServices`. -/
inductive TopEvent where
  /-- `console.log` of the "registered" message. -/
  | registered (name : String)
  /-- An action performed while entering `startService` for this service. -/
  | act (name : String) (a : SvcAction)
  /-- `console.warn` that `services.json` failed to parse. -/
  | warnBadServices
  deriving DecidableEq, Repr

/-- Whether a boot event is the "registered" log. -/
def TopEvent.isRegistered : TopEvent → Bool
  | TopEvent.registered _ => true
  | _ => false

/-- Whether a boot event is logged at warning or error severity. -/
def TopEvent.isLoudWarning : TopEvent → Bool
  | TopEvent.warnBadServices => true
  | TopEvent.act _ a => a.isErrorLog
  | _ => false

/-- Registration of one declared service in `startAllServices`: log
"registered", then either install the `startDelay` timer (when positive) or
enter `startService` immediately. Returns the events and the instance. -/
def registerCustom (fs : String → Bool) (svc : ServiceConfig) :
    List TopEvent × (String × SvcState) :=
  let d := svc.startDelay.getD 0
  if 0 < d then
    ([TopEvent.registered svc.name,
      TopEvent.act svc.name (SvcAction.logDelayingStart svc.name d)],
     (svc.name, SvcState.timer (d * 1000) SvcCont.firstStart))
  else
    let r := startService fs svc 0
    (TopEvent.registered svc.name :: r.2.map (TopEvent.act svc.name),
     (svc.name, r.1))

/-- Registration of every declared service, in list order. -/
def registerAll (fs : String → Bool) :
    List ServiceConfig → List TopEvent × List (String × SvcState)
  | [] => ([], [])
  | svc :: rest =>
    let r := registerCustom fs svc
    let rr := registerAll fs rest
    (r.1 ++ rr.1, r.2 :: rr.2)

/-- The result of `startAllServices`: the ordered boot events and the
per-service instances that were created. -/
structure TopResult where
  events : List TopEvent
  instances : List (String × SvcState)
  deriving DecidableEq, Repr

/-- `startAllServices()` of the source: the gateway is registered and
started first, unconditionally; then, if `services.json` exists, it is
parsed (`parsed = none` models a `JSON.parse` failure, caught and turned
into a single `console.warn`) and each declared service is registered. -/
def startAllServices (fs : String → Bool) (servicesFileExists : Bool)
    (parsed : Option (List ServiceConfig)) : TopResult :=
  let g := startService fs gatewayConfig 0
  let gEvents := TopEvent.registered "gateway" :: g.2.map (TopEvent.act "gateway")
  let gInst := [("gateway", g.1)]
  if servicesFileExists then
    match parsed with
    | some svcs =>
      let r := registerAll fs svcs
      { events := gEvents ++ r.1, instances := gInst ++ r.2 }
    | none =>
      { events := gEvents ++ [TopEvent.warnBadServices], instances := gInst }
  else
    { events := gEvents, instances := gInst }

/-- One action of the one-time maintenance fixups in `main()`. -/
inductive MaintAction where
  /-- `rmSync` of the stale `wacli/LOCK` file. -/
  | removeLock
  /-- `console.log` that the stale lock was removed. -/
  | logRemovedLock
  /-- `renameSync` of `telegram-allowFrom.json` to its current name. -/
  | renameAllowFrom
  /-- `console.log` of the migration message. -/
  | logMigrated
  /-- Best-effort `chmodSync(CONFIG_DIR, 0o700)` (errors swallowed). -/
  | chmodConfigDir
  deriving DecidableEq, Repr

/-- `cleanStaleLocks()` of the source, given whether the lock file exists. -/
def cleanStaleLocks (lockExists : Bool) : List MaintAction :=
  if lockExists then [MaintAction.removeLock, MaintAction.logRemovedLock]
  else []

/-- `migrateDoctor()` of the source, given whether the legacy-named and the
current-named state files exist: rename only when the legacy file exists and
the current one does not, then best-effort tighten permissions. -/
def migrateDoctor (oldAllowFrom newAllowFrom : Bool) : List MaintAction :=
  (if oldAllowFrom && !newAllowFrom then
     [MaintAction.renameAllowFrom, MaintAction.logMigrated]
   else []) ++
  [MaintAction.chmodConfigDir]

/-- The one-time maintenance fixups in the order `main()` runs them:
`cleanStaleLocks()` first, then `migrateDoctor()`. -/
def maintTrace (lockExists oldAllowFrom newAllowFrom : Bool) :
    List MaintAction :=
  cleanStaleLocks lockExists ++ migrateDoctor oldAllowFrom newAllowFrom

/-- Index of the first occurrence of `a`. -/
def firstIdx (a : MaintAction) (t : List MaintAction) : Option Nat :=
  t.findIdx? (fun x => x == a)

/-- True when the first occurrence of `a` comes strictly before the first
occurrence of `b`, vacuously true unless both occur. -/
def firstBeforeB (a b : MaintAction) (t : List MaintAction) : Bool :=
  match firstIdx a t, firstIdx b t with
  | some i, some j => decide (i < j)
  | _, _ => true

/-- JavaScript `parseInt(s, 10)`: skip leading whitespace, read an optional
sign, then the maximal run of decimal digits; no digits means `NaN`
(modelled as `none`), otherwise the signed value of the digit run (any
trailing garbage is ignored). -/
def parseIntJS10 (s : String) : Option Int :=
  let l := s.data.dropWhile isJsSpace
  let sl : Int × List Char :=
    match l with
    | '-' :: rest => (-1, rest)
    | '+' :: rest => (1, rest)
    | _ => (1, l)
  let digits := sl.2.takeWhile Char.isDigit
  if digits = [] then none
  else
    some (sl.1 *
      Int.ofNat (digits.foldl (fun a c => a * 10 + (c.toNat - 48)) 0))

/-- `process.env.STARTUP_DELAY || "0"`: an absent or empty variable is
replaced by the string `"0"` before parsing. -/
def startupDelayRaw : Option String → String
  | none => "0"
  | some s => if s = "" then "0" else s

/-- The parsed startup delay of `main()`:
`parseInt(process.env.STARTUP_DELAY || "0", 10)`. -/
def startupDelayParsed (env : Option String) : Option Int :=
  parseIntJS10 (startupDelayRaw env)

/-- One event of the `main()` boot sequence. -/
inductive MainEvent where
  /-- The `setupSkills()` pre-step (opaque to this development). -/
  | setupSkillsRun
  /-- A one-time maintenance action. -/
  | maint (m : MaintAction)
  /-- The single global startup wait of `seconds` seconds. -/
  | waitStartup (seconds : Int)
  /-- A boot event of `startAllServices()`. -/
  | top (t : TopEvent)
  deriving DecidableEq, Repr

/-- Whether a boot event is the global startup wait. -/
def MainEvent.isWait : MainEvent → Bool
  | MainEvent.waitStartup _ => true
  | _ => false

/-- `main()` of the source as an ordered event list: `setupSkills()`, then
`cleanStaleLocks()`, then `migrateDoctor()`, then (only when the parsed
startup delay is a number greater than zero) the single global wait, then
`startAllServices()`. -/
def mainEvents (env : Option String) (lockExists oldAllowFrom newAllowFrom : Bool)
    (fs : String → Bool) (servicesFileExists : Bool)
    (parsed : Option (List ServiceConfig)) : List MainEvent :=
  MainEvent.setupSkillsRun ::
    ((maintTrace lockExists oldAllowFrom newAllowFrom).map MainEvent.maint ++
     ((match startupDelayParsed env with
       | some n => if 0 < n then [MainEvent.waitStartup n] else []
       | none => []) ++
      (startAllServices fs servicesFileExists parsed).events.map MainEvent.top))

/-- The number of global startup waits in a boot sequence. -/
def countWaits (l : List MainEvent) : Nat :=
  l.countP (fun e => MainEvent.isWait e)

/-- Spec-side notion of a numeric decimal integer string: an optional sign
followed by one or more ASCII digits and nothing else. Used to witness that
the code's `parseInt` accepts some non-numeric strings. -/
def isDecimalIntString (s : String) : Bool :=
  let l :=
    match s.data with
    | '-' :: r => r
    | '+' :: r => r
    | l => l
  !l.isEmpty && l.all Char.isDigit

/-- Spec-side: a nonempty run of JavaScript whitespace characters. -/
def WsRun (w : List Char) : Prop := w ≠ [] ∧ ∀ c ∈ w, isJsSpace c = true

/-- Spec-side: a nonempty run of path characters (no whitespace and none of
`;`, `&`, `|`, backquote, `$`, `(`, `)`). -/
def PathRun (p : List Char) : Prop := p ≠ [] ∧ ∀ c ∈ p, isPathChar c = true

/-- Spec-side reading of the optional trailing group: absent, or whitespace,
`2>/dev/null`, whitespace, `||`, whitespace, `true` — both parts, in that
order. -/
def SpecSuffix (l : List Char) : Prop :=
  l = [] ∨ ∃ w1 w2 w3, WsRun w1 ∧ WsRun w2 ∧ WsRun w3 ∧
    l = w1 ++ litDevNull ++ w2 ++ litPipes ++ w3 ++ litTrue

/-- Spec-side reading of the whole allow-listed shape: `chmod`, `-R`,
`a+rw`, `/home/node/` followed by a nonempty path, separated by whitespace
runs, with the optional trailing `2>/dev/null || true` group. -/
def SpecAllowed (l : List Char) : Prop :=
  ∃ w1 w2 w3 p suf, WsRun w1 ∧ WsRun w2 ∧ WsRun w3 ∧ PathRun p ∧
    SpecSuffix suf ∧
    l = litChmod ++ w1 ++ litDashR ++ w2 ++ litArw ++ w3 ++ litHome ++ p ++ suf

/-- The characters whose presence anywhere in a command the original claim
says forces rejection: semicolon, the command-substitution characters `$`,
backquote, parentheses, and `&`. -/
def isBadChar (c : Char) : Bool :=
  c == ';' || c == '$' || c == '\x60' || c == '(' || c == ')' || c == '&'

/-- Matching a literal succeeds exactly when the input starts with it. -/
theorem stripLit_eq_some (lit : List Char) :
    ∀ l r : List Char, stripLit lit l = some r ↔ l = lit ++ r := by
  induction lit with
  | nil => intro l r; simp [stripLit]
  | cons c cs ih =>
    intro l r
    cases l with
    | nil => simp [stripLit]
    | cons d ds =>
      by_cases h : d = c
      · subst h
        simp [stripLit, ih]
      · simp [stripLit, h]

/-- The head of `dropWhile p` fails `p`. -/
theorem head_dropWhile_false (p : Char → Bool) :
    ∀ (l : List Char) (c : Char), (l.dropWhile p).head? = some c → p c = false := by
  intro l
  induction l with
  | nil => intro c h; simp [List.dropWhile] at h
  | cons d ds ih =>
    intro c h
    by_cases hp : p d = true
    · rw [List.dropWhile_cons, if_pos hp] at h
      exact ih c h
    · rw [List.dropWhile_cons, if_neg hp] at h
      simp only [List.head?_cons, Option.some.injEq] at h
      subst h
      exact Bool.not_eq_true _ |>.mp hp

/-- `dropWhile` is the identity when the head already fails `p`. -/
theorem dropWhile_eq_self_of_head (p : Char → Bool) (l : List Char)
    (h : ∀ c, l.head? = some c → p c = false) : l.dropWhile p = l := by
  cases l with
  | nil => rfl
  | cons c rest => simp [List.dropWhile_cons, h c rfl]

/-- `dropWhile` removes exactly a leading all-`p` block when what follows
starts with a non-`p` character (or is empty). -/
theorem dropWhile_append_all (p : Char → Bool) (w l : List Char)
    (hw : ∀ c ∈ w, p c = true) (hl : ∀ c, l.head? = some c → p c = false) :
    (w ++ l).dropWhile p = l := by
  induction w with
  | nil => simpa using dropWhile_eq_self_of_head p l hl
  | cons c cs ih =>
    have hc : p c = true := hw c (by simp)
    simp only [List.cons_append, List.dropWhile_cons, hc, if_true]
    exact ih (fun d hd => hw d (by simp [hd]))

/-- `stripRun p` succeeds exactly on inputs that split into a nonempty
all-`p` run followed by a rest whose head fails `p`. -/
theorem stripRun_eq_some (p : Char → Bool) (l r : List Char) :
    stripRun p l = some r ↔
      ∃ w, w ≠ [] ∧ (∀ c ∈ w, p c = true) ∧ l = w ++ r ∧
        (∀ c, r.head? = some c → p c = false) := by
  constructor
  · intro h
    cases l with
    | nil => simp [stripRun] at h
    | cons c rest =>
      by_cases hc : p c = true
      · rw [stripRun, if_pos hc, Option.some.injEq] at h
        refine ⟨c :: rest.takeWhile p, by simp, ?_, ?_, ?_⟩
        · intro d hd
          rcases List.mem_cons.mp hd with hd | hd
          · subst hd; exact hc
          · exact List.mem_takeWhile_imp hd
        · rw [← h]
          simp [List.cons_append, List.takeWhile_append_dropWhile]
        · intro d hd
          rw [← h] at hd
          exact head_dropWhile_false p rest d hd
      · rw [stripRun, if_neg hc] at h
        exact absurd h (by simp)
  · rintro ⟨w, hne, hall, rfl, hhead⟩
    cases w with
    | nil => exact absurd rfl hne
    | cons c cs =>
      have hc : p c = true := hall c (by simp)
      rw [List.cons_append, stripRun, if_pos hc, Option.some.injEq]
      exact dropWhile_append_all p cs r (fun d hd => hall d (by simp [hd])) hhead

/-- A character failing `p` survives `dropWhile p`. -/
theorem mem_dropWhile_of_not (p : Char → Bool) (l : List Char) (c : Char)
    (hc : c ∈ l) (hp : p c = false) : c ∈ l.dropWhile p := by
  rw [← List.takeWhile_append_dropWhile (p := p) (l := l)] at hc
  rcases List.mem_append.mp hc with h | h
  · exact absurd (List.mem_takeWhile_imp h) (by simp [hp])
  · exact h

/-- A non-whitespace character of the string survives `trim`. -/
theorem mem_jsTrim (s : String) (c : Char) (hc : c ∈ s.data)
    (hp : isJsSpace c = false) : c ∈ jsTrim s := by
  unfold jsTrim
  rw [List.mem_reverse]
  refine mem_dropWhile_of_not _ _ _ ?_ hp
  rw [List.mem_reverse]
  exact mem_dropWhile_of_not _ _ _ hc hp

/-- Matching a literal at its own occurrence. -/
theorem stripLit_self (lit x : List Char) : stripLit lit (lit ++ x) = some x :=
  (stripLit_eq_some lit (lit ++ x) x).mpr rfl

/-- `stripRun` consumes exactly a given nonempty all-`q` block when the rest
starts with a character failing `q` (or is empty). -/
theorem stripRun_exact (q : Char → Bool) (w : List Char) (hne : w ≠ [])
    (hall : ∀ c ∈ w, q c = true) (r : List Char)
    (hr : ∀ c, r.head? = some c → q c = false) :
    stripRun q (w ++ r) = some r :=
  (stripRun_eq_some q (w ++ r) r).mpr ⟨w, hne, hall, rfl, hr⟩

/-- Whitespace is never a path character. -/
theorem path_false_of_space (c : Char) (h : isJsSpace c = true) :
    isPathChar c = false := by
  simp [isPathChar, h]

/-- A legal suffix never starts with a path character. -/
theorem spec_suffix_head (suf : List Char) (h : SpecSuffix suf) :
    ∀ c, suf.head? = some c → isPathChar c = false := by
  rcases h with rfl | ⟨v1, v2, v3, hv1, hv2, hv3, rfl⟩
  · intro c hc; simp at hc
  · intro c hc
    obtain ⟨hne, hall⟩ := hv1
    cases v1 with
    | nil => exact absurd rfl hne
    | cons d ds =>
      simp only [List.cons_append, List.head?_cons, Option.some.injEq] at hc
      subst hc
      exact path_false_of_space d (hall d (by simp))

/-- The compiled `ALLOWED_PRECMD` matcher accepts exactly the declarative
allow-listed shape. -/
theorem allowedPrecmd_iff (l : List Char) :
    allowedPrecmd l = true ↔ SpecAllowed l := by
  constructor
  · intro h
    unfold allowedPrecmd at h
    cases hh : headRest l with
    | none => rw [hh] at h; exact absurd h (by simp)
    | some rest =>
      rw [hh] at h
      unfold headRest at hh
      simp only [Option.bind_eq_some] at hh
      obtain ⟨l1, e1, l2, e2, l3, e3, l4, e4, l5, e5, l6, e6, l7, e7, e8⟩ := hh
      have E1 : l = litChmod ++ l1 := (stripLit_eq_some _ _ _).mp e1
      obtain ⟨w1, hw1ne, hw1all, E2, -⟩ := (stripRun_eq_some _ _ _).mp e2
      have E3 : l2 = litDashR ++ l3 := (stripLit_eq_some _ _ _).mp e3
      obtain ⟨w2, hw2ne, hw2all, E4, -⟩ := (stripRun_eq_some _ _ _).mp e4
      have E5 : l4 = litArw ++ l5 := (stripLit_eq_some _ _ _).mp e5
      obtain ⟨w3, hw3ne, hw3all, E6, -⟩ := (stripRun_eq_some _ _ _).mp e6
      have E7 : l6 = litHome ++ l7 := (stripLit_eq_some _ _ _).mp e7
      obtain ⟨p, hpne, hpall, E8, -⟩ := (stripRun_eq_some _ _ _).mp e8
      refine ⟨w1, w2, w3, p, rest, ⟨hw1ne, hw1all⟩, ⟨hw2ne, hw2all⟩,
        ⟨hw3ne, hw3all⟩, ⟨hpne, hpall⟩, ?_, ?_⟩
      · cases rest with
        | nil => exact Or.inl rfl
        | cons x xs =>
          unfold matchOptSuffix at h
          have hs : suffixRest (x :: xs) = some [] := of_decide_eq_true h
          unfold suffixRest at hs
          simp only [Option.bind_eq_some] at hs
          obtain ⟨m1, f1, m2, f2, m3, f3, m4, f4, m5, f5, f6⟩ := hs
          obtain ⟨v1, hv1ne, hv1all, F1, -⟩ := (stripRun_eq_some _ _ _).mp f1
          have F2 : m1 = litDevNull ++ m2 := (stripLit_eq_some _ _ _).mp f2
          obtain ⟨v2, hv2ne, hv2all, F3, -⟩ := (stripRun_eq_some _ _ _).mp f3
          have F4 : m3 = litPipes ++ m4 := (stripLit_eq_some _ _ _).mp f4
          obtain ⟨v3, hv3ne, hv3all, F5, -⟩ := (stripRun_eq_some _ _ _).mp f5
          have F6 : m5 = litTrue ++ [] := (stripLit_eq_some _ _ _).mp f6
          refine Or.inr ⟨v1, v2, v3, ⟨hv1ne, hv1all⟩, ⟨hv2ne, hv2all⟩,
            ⟨hv3ne, hv3all⟩, ?_⟩
          rw [F1, F2, F3, F4, F5, F6]
          simp [List.append_assoc]
      · rw [E1, E2, E3, E4, E5, E6, E7, E8]
        simp [List.append_assoc]
  · rintro ⟨w1, w2, w3, p, suf, ⟨hw1ne, hw1all⟩, ⟨hw2ne, hw2all⟩,
      ⟨hw3ne, hw3all⟩, ⟨hpne, hpall⟩, hsuf, rfl⟩
    simp only [List.append_assoc]
    have h2 := stripRun_exact isJsSpace w1 hw1ne hw1all
      (litDashR ++ (w2 ++ (litArw ++ (w3 ++ (litHome ++ (p ++ suf))))))
      (by
        intro c hc
        simp only [litDashR, List.cons_append, List.head?_cons,
          Option.some.injEq] at hc
        subst hc; decide)
    have h4 := stripRun_exact isJsSpace w2 hw2ne hw2all
      (litArw ++ (w3 ++ (litHome ++ (p ++ suf))))
      (by
        intro c hc
        simp only [litArw, List.cons_append, List.head?_cons,
          Option.some.injEq] at hc
        subst hc; decide)
    have h6 := stripRun_exact isJsSpace w3 hw3ne hw3all
      (litHome ++ (p ++ suf))
      (by
        intro c hc
        simp only [litHome, List.cons_append, List.head?_cons,
          Option.some.injEq] at hc
        subst hc; decide)
    have h8 := stripRun_exact isPathChar p hpne hpall suf (spec_suffix_head suf hsuf)
    have key : headRest (litChmod ++ (w1 ++ (litDashR ++ (w2 ++ (litArw ++
        (w3 ++ (litHome ++ (p ++ suf)))))))) = some suf := by
      unfold headRest
      simp only [stripLit_self, Option.some_bind, h2, h4, h6, h8]
    unfold allowedPrecmd
    rw [key]
    rcases hsuf with rfl | ⟨v1, v2, v3, ⟨hv1ne, hv1all⟩, ⟨hv2ne, hv2all⟩,
      ⟨hv3ne, hv3all⟩, rfl⟩
    · rfl
    · have g2 := stripRun_exact isJsSpace v1 hv1ne hv1all
        (litDevNull ++ (v2 ++ (litPipes ++ (v3 ++ litTrue))))
        (by
          intro c hc
          simp only [litDevNull, List.cons_append, List.head?_cons,
            Option.some.injEq] at hc
          subst hc; decide)
      have g4 := stripRun_exact isJsSpace v2 hv2ne hv2all
        (litPipes ++ (v3 ++ litTrue))
        (by
          intro c hc
          simp only [litPipes, List.cons_append, List.head?_cons,
            Option.some.injEq] at hc
          subst hc; decide)
      have g6 := stripRun_exact isJsSpace v3 hv3ne hv3all litTrue
        (by
          intro c hc
          simp only [litTrue, List.head?_cons, Option.some.injEq] at hc
          subst hc; decide)
      have gT : stripLit litTrue litTrue = some [] := by
        have := stripLit_self litTrue []
        simpa using this
      have hSufx : suffixRest (v1 ++ (litDevNull ++ (v2 ++ (litPipes ++
          (v3 ++ litTrue))))) = some [] := by
        unfold suffixRest
        simp only [g2, Option.some_bind, stripLit_self, g4, g6, gT]
      obtain ⟨d, ds, hv1eq⟩ : ∃ d ds, v1 = d :: ds := by
        cases v1 with
        | nil => exact absurd rfl hv1ne
        | cons d ds => exact ⟨d, ds, rfl⟩
      subst hv1eq
      simp only [List.append_assoc, List.cons_append]
      unfold matchOptSuffix
      rw [← List.cons_append]
      exact decide_eq_true (by simpa [List.append_assoc] using hSufx)

/-- None of the rejected characters is whitespace. -/
theorem bad_not_space (c : Char) (h : isBadChar c = true) : isJsSpace c = false := by
  simp only [isBadChar, Bool.or_eq_true, beq_iff_eq] at h
  rcases h with ((((rfl | rfl) | rfl) | rfl) | rfl) | rfl <;> decide

/-- None of the rejected characters is a path character. -/
theorem bad_not_path (c : Char) (h : isBadChar c = true) : isPathChar c = false := by
  simp only [isBadChar, Bool.or_eq_true, beq_iff_eq] at h
  rcases h with ((((rfl | rfl) | rfl) | rfl) | rfl) | rfl <;> decide

/-- Every character of an allow-listed command is benign: it belongs to one
of the fixed literals, a whitespace run, or the path, and none of those
contains a rejected character. -/
theorem spec_allowed_chars (l : List Char) (h : SpecAllowed l) :
    ∀ c ∈ l, isBadChar c = false := by
  obtain ⟨w1, w2, w3, p, suf, ⟨-, hw1⟩, ⟨-, hw2⟩, ⟨-, hw3⟩, ⟨-, hp⟩, hsuf, rfl⟩ := h
  intro c hc
  by_contra hb
  rw [Bool.not_eq_false] at hb
  have hnotsp := bad_not_space c hb
  have hnotpath := bad_not_path c hb
  simp only [List.append_assoc, List.mem_append] at hc
  rcases hc with hc | hc | hc | hc | hc | hc | hc | hc | hc
  · exact absurd ((by decide : ∀ d ∈ litChmod, isBadChar d = false) c hc) (by simp [hb])
  · exact absurd (hw1 c hc) (by simp [hnotsp])
  · exact absurd ((by decide : ∀ d ∈ litDashR, isBadChar d = false) c hc) (by simp [hb])
  · exact absurd (hw2 c hc) (by simp [hnotsp])
  · exact absurd ((by decide : ∀ d ∈ litArw, isBadChar d = false) c hc) (by simp [hb])
  · exact absurd (hw3 c hc) (by simp [hnotsp])
  · exact absurd ((by decide : ∀ d ∈ litHome, isBadChar d = false) c hc) (by simp [hb])
  · exact absurd (hp c hc) (by simp [hnotpath])
  · rcases hsuf with rfl | ⟨v1, v2, v3, ⟨-, hv1⟩, ⟨-, hv2⟩, ⟨-, hv3⟩, rfl⟩
    · simp at hc
    · simp only [List.append_assoc, List.mem_append] at hc
      rcases hc with hc | hc | hc | hc | hc | hc
      · exact absurd (hv1 c hc) (by simp [hnotsp])
      · exact absurd ((by decide : ∀ d ∈ litDevNull, isBadChar d = false) c hc) (by simp [hb])
      · exact absurd (hv2 c hc) (by simp [hnotsp])
      · exact absurd ((by decide : ∀ d ∈ litPipes, isBadChar d = false) c hc) (by simp [hb])
      · exact absurd (hv3 c hc) (by simp [hnotsp])
      · exact absurd ((by decide : ∀ d ∈ litTrue, isBadChar d = false) c hc) (by simp [hb])

/-- A command containing a semicolon, `$`, backquote, parenthesis or `&`
anywhere is always rejected by `validatePreCommand`. -/
theorem validate_no_bad_char (s : String) (c : Char) (hm : c ∈ s.data)
    (hb : isBadChar c = true) : validatePreCommand s = false := by
  by_contra h
  rw [Bool.not_eq_false] at h
  have hs : SpecAllowed (jsTrim s) := (allowedPrecmd_iff (jsTrim s)).mp h
  have hcm : c ∈ jsTrim s := mem_jsTrim s c hm (bad_not_space c hb)
  have := spec_allowed_chars (jsTrim s) hs c hcm
  simp [hb] at this

/-- An entry into `startService` that left the instance running took the
proceed path: its actions are exactly the pre-command step plus the spawn. -/
theorem startService_running (fs : String → Bool) (svc : ServiceConfig) (a : Nat)
    (h : (startService fs svc a).1 = SvcState.running) :
    startService fs svc a = (SvcState.running, proceedActions svc) := by
  rcases hcond : svc.condition with - | c
  · simp [startService, hcond]
  · by_cases hsw : strStartsWith c "file:" = true
    · by_cases hfs : fs (strDrop c 5) = true
      · simp [startService, hcond, hsw, hfs]
      · rw [Bool.not_eq_true] at hfs
        simp [startService, hcond, hsw, hfs] at h
    · rw [Bool.not_eq_true] at hsw
      simp [startService, hcond, hsw]

/-- With a `file:` condition whose path does not exist, an entry into
`startService` only logs (throttled) and schedules the 30-second retry. -/
theorem blocked_enter (fs : String → Bool) (svc : ServiceConfig) (c : String)
    (hc : svc.condition = some c) (hs : strStartsWith c "file:" = true)
    (hf : fs (strDrop c 5) = false) (a : Nat) :
    startService fs svc a =
      (SvcState.timer 30000 (SvcCont.condRetry (a + 1)),
       if a == 0 || a % 10 == 0 then
         [SvcAction.logWaiting svc.name (strDrop c 5)]
       else []) := by
  simp [startService, hc, hs, hf]

/-- With a blocked `file:` condition, no entry into `startService` ever
spawns the command. -/
theorem blocked_no_spawn (fs : String → Bool) (svc : ServiceConfig) (c : String)
    (hc : svc.condition = some c) (hs : strStartsWith c "file:" = true)
    (hf : fs (strDrop c 5) = false) (a : Nat) :
    ∀ act ∈ (startService fs svc a).2, act.isSpawn = false := by
  intro act hact
  rw [blocked_enter fs svc c hc hs hf a] at hact
  simp only at hact
  split at hact
  · simp only [List.mem_singleton] at hact
    subst hact
    rfl
  · simp at hact

/-- With a blocked `file:` condition, the service stays in the 30-second
poll loop forever: after `n` timer firings it is again waiting, with the
attempt counter at `n + 1`. -/
theorem blocked_iter (fs : String → Bool) (svc : ServiceConfig) (c : String)
    (hc : svc.condition = some c) (hs : strStartsWith c "file:" = true)
    (hf : fs (strDrop c 5) = false) :
    ∀ n, iterStates fs svc n = SvcState.timer 30000 (SvcCont.condRetry (n + 1)) := by
  intro n
  induction n with
  | zero => simp [iterStates, blocked_enter fs svc c hc hs hf 0]
  | succ k ih =>
    rw [iterStates, ih]
    simp [fireTimer, blocked_enter fs svc c hc hs hf (k + 1)]

/-- C1 counterexample: a service whose condition is present, non-empty and
not of the `file:` syntax is spawned immediately by `startService`, with no
condition-related log — contradicting the claim that it is never spawned. -/
theorem c1_counterexample :
    (startService (fun _ => false)
        ⟨"aux", "run-aux", some "ready:/tmp/x", none, none, none⟩ 0).1 =
      SvcState.running ∧
    SvcAction.spawnAsUser NODE_UID NODE_GID NODE_HOME "run-aux" ∈
      (startService (fun _ => false)
        ⟨"aux", "run-aux", some "ready:/tmp/x", none, none, none⟩ 0).2 := by
  decide

/-- C1 (amended): a condition that is present but does not start with
`file:` is silently ignored — `startService` proceeds exactly as if no
condition were set: the command is spawned, no waiting log is emitted and no
retry timer is installed (the gate fails open, not closed). -/
theorem c1_unrecognized_condition_fails_open (fs : String → Bool)
    (svc : ServiceConfig) (attempt : Nat) (c : String)
    (hc : svc.condition = some c) (hs : strStartsWith c "file:" = false) :
    startService fs svc attempt = (SvcState.running, proceedActions svc) ∧
    SvcAction.spawnAsUser NODE_UID NODE_GID NODE_HOME svc.command ∈
      proceedActions svc ∧
    (∀ f, SvcAction.logWaiting svc.name f ∉ proceedActions svc) := by
  refine ⟨by simp [startService, hc, hs], by simp [proceedActions], ?_⟩
  intro f hmem
  simp only [proceedActions, List.mem_append] at hmem
  rcases hmem with hmem | hmem
  · rcases hp : svc.preCommand with - | pc
    · rw [hp] at hmem; simp at hmem
    · by_cases hv : validatePreCommand pc = true
      · rw [hp] at hmem
        simp [hv] at hmem
      · rw [Bool.not_eq_true] at hv
        rw [hp] at hmem
        simp [hv] at hmem
  · simp at hmem

/-- C1 witness: the amended theorem applied to a concrete service with an
unrecognized condition string. -/
theorem c1_witness :
    startService (fun _ => false)
        ⟨"aux2", "run2", some "sock:/tmp/s", none, none, none⟩ 3 =
      (SvcState.running,
       proceedActions ⟨"aux2", "run2", some "sock:/tmp/s", none, none, none⟩) :=
  (c1_unrecognized_condition_fails_open (fun _ => false)
    ⟨"aux2", "run2", some "sock:/tmp/s", none, none, none⟩ 3 "sock:/tmp/s"
    rfl (by decide)).1

/-- C2 counterexample: the claim says `chmod -R a+rw /home/node/data || true`
is accepted; the code rejects it (the regex only allows the combined
`2>/dev/null || true` tail, not `|| true` alone). -/
theorem c2_counterexample :
    validatePreCommand "chmod -R a+rw /home/node/data || true" = false := by
  decide

/-- C2 (amended): `validatePreCommand` accepts exactly the trimmed commands
of the shape `chmod -R a+rw /home/node/<path>` with an optional trailing
` 2>/dev/null || true` (both parts, in that order); it rejects `|| true` or
`2>/dev/null` alone, and rejects every command containing a semicolon,
`$`, backquote, parenthesis or `&` anywhere. -/
theorem c2_validate_characterization :
    (∀ s : String, validatePreCommand s = true ↔ SpecAllowed (jsTrim s)) ∧
    (∀ (s : String) (c : Char), c ∈ s.data → isBadChar c = true →
       validatePreCommand s = false) ∧
    validatePreCommand "chmod -R a+rw /home/node/data" = true ∧
    validatePreCommand "chmod -R a+rw /home/node/data 2>/dev/null || true" = true ∧
    validatePreCommand "chmod -R a+rw /home/node/data 2>/dev/null" = false ∧
    validatePreCommand "chmod a+rw -R /home/node/data" = false :=
  ⟨fun s => allowedPrecmd_iff (jsTrim s), validate_no_bad_char,
   by decide, by decide, by decide, by decide⟩

/-- C2 witness: a tampered pre-command with a semicolon is rejected. -/
theorem c2_witness :
    validatePreCommand "chmod -R a+rw /home/node/data; rm -rf /tmp" = false :=
  c2_validate_characterization.2.1 "chmod -R a+rw /home/node/data; rm -rf /tmp"
    ';' (by decide) (by decide)

/-- C3: for a service with a pre-command, on any `startService` entry that
reaches the spawn: a valid pre-command runs (synchronously, as root)
strictly before the spawn; an invalid one is never run, is reported via
`console.error`, and the spawn still happens afterwards. -/
theorem c3_precommand_policy (fs : String → Bool) (svc : ServiceConfig)
    (attempt : Nat) (pc : String) (hpc : svc.preCommand = some pc)
    (hrun : (startService fs svc attempt).1 = SvcState.running) :
    (validatePreCommand pc = true →
       (startService fs svc attempt).2 =
         [SvcAction.runPreAsRoot pc,
          SvcAction.spawnAsUser NODE_UID NODE_GID NODE_HOME svc.command,
          SvcAction.logStarted svc.name]) ∧
    (validatePreCommand pc = false →
       (startService fs svc attempt).2 =
         [SvcAction.errorBlocked svc.name pc,
          SvcAction.spawnAsUser NODE_UID NODE_GID NODE_HOME svc.command,
          SvcAction.logStarted svc.name]) := by
  rw [startService_running fs svc attempt hrun]
  constructor <;> intro hv <;> simp [proceedActions, hpc, hv]

/-- C3 witness: one service with an unsafe pre-command (blocked, spawn still
happens) and one with the allow-listed pre-command (run before the spawn). -/
theorem c3_witness :
    (startService (fun _ => true)
        ⟨"svc3", "run3", none, some "rm -rf /tmp", none, none⟩ 0).2 =
      [SvcAction.errorBlocked "svc3" "rm -rf /tmp",
       SvcAction.spawnAsUser NODE_UID NODE_GID NODE_HOME "run3",
       SvcAction.logStarted "svc3"] ∧
    (startService (fun _ => true)
        ⟨"svc3b", "run3b", none, some "chmod -R a+rw /home/node/data", none,
          none⟩ 0).2 =
      [SvcAction.runPreAsRoot "chmod -R a+rw /home/node/data",
       SvcAction.spawnAsUser NODE_UID NODE_GID NODE_HOME "run3b",
       SvcAction.logStarted "svc3b"] :=
  ⟨(c3_precommand_policy (fun _ => true)
      ⟨"svc3", "run3", none, some "rm -rf /tmp", none, none⟩ 0
      "rm -rf /tmp" rfl rfl).2 (by decide),
   (c3_precommand_policy (fun _ => true)
      ⟨"svc3b", "run3b", none, some "chmod -R a+rw /home/node/data", none, none⟩ 0
      "chmod -R a+rw /home/node/data" rfl rfl).1 (by decide)⟩

/-- C4: exit code exactly 0 makes the instance terminal (no timer is ever
installed again for it); any other exit code, or termination by signal
(null code), schedules a restart timer of exactly `restartDelay` seconds
(default 5). -/
theorem c4_exit_restart_policy (fs : String → Bool) (svc : ServiceConfig)
    (code : Option Int) (sig : Option String) :
    (code = some 0 →
       onExit svc code sig = (SvcState.stopped, [SvcAction.logCleanExit svc.name]) ∧
       fireTimer fs svc SvcState.stopped = (SvcState.stopped, [])) ∧
    (code ≠ some 0 →
       onExit svc code sig =
         (SvcState.timer (svc.restartDelay.getD 5 * 1000) SvcCont.restart,
          [SvcAction.logRestarting svc.name code sig (svc.restartDelay.getD 5)])) := by
  constructor
  · intro h
    exact ⟨by simp [onExit, h], rfl⟩
  · intro h
    simp [onExit, h]

/-- C4 witness: clean exit is terminal; exit code 3 restarts after the
configured 7 seconds; a signal kill (null code) restarts after the default
5 seconds. -/
theorem c4_witness :
    onExit ⟨"w4", "c4cmd", none, none, some 7, none⟩ (some 0) none =
      (SvcState.stopped, [SvcAction.logCleanExit "w4"]) ∧
    onExit ⟨"w4", "c4cmd", none, none, some 7, none⟩ (some 3) none =
      (SvcState.timer 7000 SvcCont.restart,
       [SvcAction.logRestarting "w4" (some 3) none 7]) ∧
    onExit ⟨"w4b", "c4bcmd", none, none, none, none⟩ none (some "SIGKILL") =
      (SvcState.timer 5000 SvcCont.restart,
       [SvcAction.logRestarting "w4b" none (some "SIGKILL") 5]) :=
  ⟨((c4_exit_restart_policy (fun _ => false)
       ⟨"w4", "c4cmd", none, none, some 7, none⟩ (some 0) none).1 rfl).1,
   (c4_exit_restart_policy (fun _ => false)
       ⟨"w4", "c4cmd", none, none, some 7, none⟩ (some 3) none).2 (by decide),
   (c4_exit_restart_policy (fun _ => false)
       ⟨"w4b", "c4bcmd", none, none, none, none⟩ none (some "SIGKILL")).2
     (by decide)⟩

/-- C5: while a `file:` condition's path does not exist, every entry into
`startService` spawns nothing and re-schedules the check on the fixed
30-second timer; the poll loop continues indefinitely; and a restart timer
re-enters `startService` at attempt 0, so the condition is re-evaluated
before every restart attempt, not only before the first start. -/
theorem c5_condition_polling (fs : String → Bool) (svc : ServiceConfig)
    (c : String) (hc : svc.condition = some c)
    (hs : strStartsWith c "file:" = true) (hf : fs (strDrop c 5) = false) :
    (∀ a, (startService fs svc a).1 =
       SvcState.timer 30000 (SvcCont.condRetry (a + 1)) ∧
       ∀ act ∈ (startService fs svc a).2, act.isSpawn = false) ∧
    (∀ n, iterStates fs svc n = SvcState.timer 30000 (SvcCont.condRetry (n + 1))) ∧
    (∀ m, fireTimer fs svc (SvcState.timer m SvcCont.restart) =
       startService fs svc 0) := by
  refine ⟨?_, blocked_iter fs svc c hc hs hf, fun m => rfl⟩
  intro a
  exact ⟨by rw [blocked_enter fs svc c hc hs hf a],
    blocked_no_spawn fs svc c hc hs hf a⟩

/-- C5 witness: a concrete service whose `file:/tmp/ready` path never
exists is still in the waiting state after three poll firings. -/
theorem c5_witness :
    iterStates (fun _ => false)
        ⟨"w5", "c5cmd", some "file:/tmp/ready", none, none, none⟩ 3 =
      SvcState.timer 30000 (SvcCont.condRetry 4) :=
  (c5_condition_polling (fun _ => false)
    ⟨"w5", "c5cmd", some "file:/tmp/ready", none, none, none⟩
    "file:/tmp/ready" rfl (by decide) rfl).2.1 3

/-- C10: a condition that is exactly `file:` extracts the empty path; on a
filesystem where the empty path never exists, the service loops in the
30-second poll forever and its command is never spawned — the empty-path
condition permanently blocks the service instead of meaning "no
condition". -/
theorem c10_empty_path_condition_blocks (fs : String → Bool)
    (svc : ServiceConfig) (hc : svc.condition = some "file:")
    (hfs : fs "" = false) :
    strDrop "file:" 5 = "" ∧
    (∀ n, iterStates fs svc n = SvcState.timer 30000 (SvcCont.condRetry (n + 1))) ∧
    (∀ n, ∀ act ∈ (fireTimer fs svc (iterStates fs svc n)).2,
       act.isSpawn = false) := by
  have hs : strStartsWith "file:" "file:" = true := by decide
  have hdrop : strDrop "file:" 5 = "" := by decide
  have hf : fs (strDrop "file:" 5) = false := by rw [hdrop]; exact hfs
  refine ⟨hdrop, blocked_iter fs svc "file:" hc hs hf, ?_⟩
  intro n act hact
  rw [blocked_iter fs svc "file:" hc hs hf n] at hact
  have hact' : act ∈ (startService fs svc (n + 1)).2 := hact
  exact blocked_no_spawn fs svc "file:" hc hs hf (n + 1) act hact'

/-- C10 witness: the empty-path condition on a concrete service with an
always-empty filesystem keeps it waiting after two poll firings. -/
theorem c10_witness :
    strDrop "file:" 5 = "" ∧
    iterStates (fun _ => false)
        ⟨"w10", "c10cmd", some "file:", none, none, none⟩ 2 =
      SvcState.timer 30000 (SvcCont.condRetry 3) :=
  ⟨(c10_empty_path_condition_blocks (fun _ => false)
      ⟨"w10", "c10cmd", some "file:", none, none, none⟩ rfl rfl).1,
   (c10_empty_path_condition_blocks (fun _ => false)
      ⟨"w10", "c10cmd", some "file:", none, none, none⟩ rfl rfl).2.1 2⟩

/-- C6: with a missing `services.json`, exactly the gateway is registered
and started, and nothing is logged at warning or error severity; with a
present but unparsable file, the gateway is still registered and started,
the custom-service set stays empty, and the single parse warning is logged
(the supervisor survives both cases by construction — `startAllServices` is
total). -/
theorem c6_services_file_handling (fs : String → Bool)
    (parsed : Option (List ServiceConfig)) :
    ((startAllServices fs false parsed).instances =
        [("gateway", SvcState.running)] ∧
     (startAllServices fs false parsed).events =
       [TopEvent.registered "gateway",
        TopEvent.act "gateway" (SvcAction.spawnAsUser NODE_UID NODE_GID
          NODE_HOME "cd /app && node dist/index.js gateway"),
        TopEvent.act "gateway" (SvcAction.logStarted "gateway")] ∧
     (startAllServices fs false parsed).events.countP
        (fun e => TopEvent.isRegistered e) = 1 ∧
     (startAllServices fs false parsed).events.all
        (fun e => !(TopEvent.isLoudWarning e)) = true) ∧
    ((startAllServices fs true none).instances =
        [("gateway", SvcState.running)] ∧
     (startAllServices fs true none).events =
       [TopEvent.registered "gateway",
        TopEvent.act "gateway" (SvcAction.spawnAsUser NODE_UID NODE_GID
          NODE_HOME "cd /app && node dist/index.js gateway"),
        TopEvent.act "gateway" (SvcAction.logStarted "gateway"),
        TopEvent.warnBadServices] ∧
     (startAllServices fs true none).events.countP
        (fun e => TopEvent.isRegistered e) = 1) :=
  ⟨⟨rfl, rfl, rfl, rfl⟩, rfl, rfl, rfl⟩

/-- C7 counterexample: when the stale lock, the legacy state file and no
current-name state file are all present, the maintenance trace deletes the
lock (index 0) before it performs the legacy rename (index 2) — the claimed
order (rename first, then lock deletion) is false. -/
theorem c7_counterexample :
    maintTrace true true false =
      [MaintAction.removeLock, MaintAction.logRemovedLock,
       MaintAction.renameAllowFrom, MaintAction.logMigrated,
       MaintAction.chmodConfigDir] ∧
    firstBeforeB MaintAction.renameAllowFrom MaintAction.removeLock
      (maintTrace true true false) = false := by
  decide

/-- C7 (amended): the one-time maintenance fixups run in the order: stale
lock deletion first, then the legacy rename (performed exactly when the
legacy file exists and the current one does not), then the best-effort
permission tightening, which always runs and always comes last. -/
theorem c7_maintenance_order :
    ∀ lockExists oldAllowFrom newAllowFrom : Bool,
      ((MaintAction.removeLock ∈ maintTrace lockExists oldAllowFrom newAllowFrom) ↔
        lockExists = true) ∧
      ((MaintAction.renameAllowFrom ∈ maintTrace lockExists oldAllowFrom newAllowFrom) ↔
        (oldAllowFrom = true ∧ newAllowFrom = false)) ∧
      (maintTrace lockExists oldAllowFrom newAllowFrom).getLast? =
        some MaintAction.chmodConfigDir ∧
      firstBeforeB MaintAction.removeLock MaintAction.renameAllowFrom
        (maintTrace lockExists oldAllowFrom newAllowFrom) = true ∧
      firstBeforeB MaintAction.renameAllowFrom MaintAction.chmodConfigDir
        (maintTrace lockExists oldAllowFrom newAllowFrom) = true ∧
      firstBeforeB MaintAction.removeLock MaintAction.chmodConfigDir
        (maintTrace lockExists oldAllowFrom newAllowFrom) = true := by
  intro a b c
  cases a <;> cases b <;> cases c <;> refine ⟨by decide, by decide, by decide,
    by decide, by decide, by decide⟩

/-- C8: a positive `startDelay` makes registration install only the
first-start timer of exactly that many seconds (no condition check, no
spawn yet); when the timer fires, `startService` runs — so with a condition
set, the delay elapses before the condition is first polled (here shown for
a still-absent file: the first poll happens on firing); and a restart after
a non-clean exit uses only `restartDelay` and re-enters `startService`
directly at the condition gate, skipping the start delay. -/
theorem c8_start_delay_policy (fs : String → Bool) (svc : ServiceConfig)
    (d : Nat) (hd : svc.startDelay = some d) (hpos : 0 < d) :
    registerCustom fs svc =
      ([TopEvent.registered svc.name,
        TopEvent.act svc.name (SvcAction.logDelayingStart svc.name d)],
       (svc.name, SvcState.timer (d * 1000) SvcCont.firstStart)) ∧
    (∀ m, fireTimer fs svc (SvcState.timer m SvcCont.firstStart) =
       startService fs svc 0) ∧
    (∀ c, svc.condition = some c → strStartsWith c "file:" = true →
       fs (strDrop c 5) = false →
       (fireTimer fs svc (SvcState.timer (d * 1000) SvcCont.firstStart)).1 =
         SvcState.timer 30000 (SvcCont.condRetry 1)) ∧
    (∀ code : Option Int, code ≠ some 0 → ∀ sig,
       (onExit svc code sig).1 =
         SvcState.timer (svc.restartDelay.getD 5 * 1000) SvcCont.restart) ∧
    (∀ m, fireTimer fs svc (SvcState.timer m SvcCont.restart) =
       startService fs svc 0) := by
  refine ⟨?_, fun m => rfl, ?_, ?_, fun m => rfl⟩
  · simp [registerCustom, hd, hpos]
  · intro c hc hs hf
    have hb := blocked_enter fs svc c hc hs hf 0
    simp [fireTimer, hb]
  · intro code hcode sig
    simp [onExit, hcode]

/-- C8 witness: a service with `startDelay = 4` and a never-satisfied
`file:` condition: registration installs the 4-second timer only; firing it
enters the condition gate and schedules the first 30-second poll. -/
theorem c8_witness :
    registerCustom (fun _ => false)
        ⟨"w8", "c8cmd", some "file:/tmp/f8", none, some 2, some 4⟩ =
      ([TopEvent.registered "w8",
        TopEvent.act "w8" (SvcAction.logDelayingStart "w8" 4)],
       ("w8", SvcState.timer 4000 SvcCont.firstStart)) ∧
    (fireTimer (fun _ => false)
        ⟨"w8", "c8cmd", some "file:/tmp/f8", none, some 2, some 4⟩
        (SvcState.timer 4000 SvcCont.firstStart)).1 =
      SvcState.timer 30000 (SvcCont.condRetry 1) :=
  ⟨(c8_start_delay_policy (fun _ => false)
      ⟨"w8", "c8cmd", some "file:/tmp/f8", none, some 2, some 4⟩ 4 rfl
      (by decide)).1,
   (c8_start_delay_policy (fun _ => false)
      ⟨"w8", "c8cmd", some "file:/tmp/f8", none, some 2, some 4⟩ 4 rfl
      (by decide)).2.2.1 "file:/tmp/f8" rfl (by decide) rfl⟩

/-- Maintenance events are never the global startup wait. -/
theorem countP_wait_maint_map (t : List MaintAction) :
    (t.map MainEvent.maint).countP (fun e => MainEvent.isWait e) = 0 := by
  induction t with
  | nil => rfl
  | cons a t ih =>
    rw [List.map_cons, List.countP_cons, ih]
    rfl

/-- Boot registration events are never the global startup wait. -/
theorem countP_wait_top_map (t : List TopEvent) :
    (t.map MainEvent.top).countP (fun e => MainEvent.isWait e) = 0 := by
  induction t with
  | nil => rfl
  | cons a t ih =>
    rw [List.map_cons, List.countP_cons, ih]
    rfl

/-- C9 counterexample: `"7abc"` is not a decimal integer numeral, yet the
supervisor parses it to 7 and applies a 7-second global startup delay —
contradicting the claim that every non-numeric value behaves like 0. -/
theorem c9_counterexample :
    isDecimalIntString "7abc" = false ∧
    startupDelayParsed (some "7abc") = some 7 ∧
    MainEvent.waitStartup 7 ∈
      mainEvents (some "7abc") false false false (fun _ => false) false none := by
  decide

/-- C9 (amended): the startup delay variable is parsed with JavaScript
`parseInt(·, 10)` semantics — an absent or empty variable is treated as the
string `"0"`; a value with no leading digits (after optional whitespace and
sign) yields `NaN` and no delay is applied; otherwise the maximal leading
digit run gives the value, so a value such as `"7abc"` does delay. When the
parsed value `n` is positive, the boot sequence contains exactly one global
wait, of `n` seconds, placed after all maintenance actions and before any
service registration. -/
theorem c9_startup_delay_semantics :
    (startupDelayParsed none = some 0 ∧ startupDelayParsed (some "") = some 0) ∧
    (∀ env lockExists oldAF newAF fs fe parsed,
       startupDelayParsed env = none →
       countWaits (mainEvents env lockExists oldAF newAF fs fe parsed) = 0) ∧
    (∀ env n lockExists oldAF newAF fs fe parsed,
       startupDelayParsed env = some n → 0 < n →
       mainEvents env lockExists oldAF newAF fs fe parsed =
         MainEvent.setupSkillsRun ::
           ((maintTrace lockExists oldAF newAF).map MainEvent.maint ++
            (MainEvent.waitStartup n ::
             (startAllServices fs fe parsed).events.map MainEvent.top)) ∧
       countWaits (mainEvents env lockExists oldAF newAF fs fe parsed) = 1) := by
  refine ⟨⟨by decide, by decide⟩, ?_, ?_⟩
  · intro env lockExists oldAF newAF fs fe parsed h
    simp only [mainEvents, h, countWaits, List.countP_cons, List.countP_append,
      List.countP_nil, countP_wait_maint_map, countP_wait_top_map]
    rfl
  · intro env n lockExists oldAF newAF fs fe parsed h hn
    have hmain : mainEvents env lockExists oldAF newAF fs fe parsed =
        MainEvent.setupSkillsRun ::
          ((maintTrace lockExists oldAF newAF).map MainEvent.maint ++
           (MainEvent.waitStartup n ::
            (startAllServices fs fe parsed).events.map MainEvent.top)) := by
      simp [mainEvents, h, hn]
    refine ⟨hmain, ?_⟩
    rw [hmain]
    simp only [countWaits, List.countP_cons, List.countP_append,
      countP_wait_maint_map, countP_wait_top_map]
    rfl

/-- C9 witness: a value with no digits applies no delay; the value `"3"`
applies exactly one global wait. -/
theorem c9_witness :
    countWaits (mainEvents (some "abc") false false false
      (fun _ => false) false none) = 0 ∧
    countWaits (mainEvents (some "3") true true false
      (fun _ => false) true none) = 1 :=
  ⟨c9_startup_delay_semantics.2.1 (some "abc") false false false
     (fun _ => false) false none (by decide),
   (c9_startup_delay_semantics.2.2 (some "3") 3 true true false
     (fun _ => false) true none (by decide) (by decide)).2⟩
